import Mathlib

/-! Verification of the memory-retrieval and extraction core of the personal
LTM assistant. The retrieval pipeline is embedded from
`src/server/src/handlers/generate_response.ts`; the record shapes come from
`src/server/src/schema.ts` and the drizzle schema. JS numbers are modelled as
real numbers, JS strings as Lean strings or lists of characters, timestamps
and row ids as naturals, SQL rows as Lean structures, and the datastore as a
structure of row lists threaded through each handler in state-passing style. -/

set_option maxRecDepth 8000

namespace LTM

/-- Memory type enum, from `memoryTypeSchema` in `src/server/src/schema.ts`:
episodic, semantic, procedural, emotional, value-principle. -/
inductive MemoryType where
  | episodic
  | semantic
  | procedural
  | emotional
  | valuePrinciple
deriving DecidableEq

/-- Chat role enum (`roleEnum`): user or assistant. -/
inductive Role where
  | user
  | assistant
deriving DecidableEq

/-- A memory row, from `memorySchema` in `src/server/src/schema.ts`.
`details` is a free-form JSON map, modelled as an optional key-value list;
`confidence_score` is nullable. -/
structure Memory where
  id : Nat
  user_id : Nat
  embedding : List ℝ
  memory_type : MemoryType
  summary : String
  full_text : String
  details : Option (List (String × String))
  confidence_score : Option ℝ
  created_at : Nat
  updated_at : Nat

/-- A chat session row (`chatSessionSchema`). -/
structure ChatSession where
  id : Nat
  user_id : Nat
  title : Option String
  created_at : Nat
  updated_at : Nat
deriving DecidableEq

/-- A chat message row (`chatMessageSchema`). -/
structure ChatMessage where
  id : Nat
  session_id : Nat
  user_id : Nat
  role : Role
  content : String
  created_at : Nat
deriving DecidableEq

/-- A user row (`userSchema`). -/
structure User where
  id : Nat
  username : String
  email : String
  password_hash : String
  created_at : Nat
  updated_at : Nat
deriving DecidableEq

/-- The datastore: the four tables of the drizzle schema as row lists. -/
structure DB where
  users : List User
  sessions : List ChatSession
  messages : List ChatMessage
  memories : List Memory

/-- One turn of the `conversationHistory` input of `generateResponse`. -/
structure ConversationTurn where
  role : Role
  content : String
  timestamp : Nat

/-- Input of `generateResponse` (`GenerateResponseInput`). -/
structure GenerateResponseInput where
  userId : Nat
  sessionId : Nat
  userMessage : String
  conversationHistory : List ConversationTurn

/-- Output of `generateResponse` (`GeneratedResponse`). -/
structure GeneratedResponse where
  content : String
  relevantMemories : List Memory
  confidence : ℝ

/-! String utilities mirroring the JavaScript primitives the handler uses. -/

/-- JS `String.prototype.toLowerCase`, modelled per character (`Char.toLower`
covers the ASCII range the triggers and tests exercise). -/
def toLowerStr (s : List Char) : List Char := s.map Char.toLower

/-- Worker for `splitWs`: the flag records whether the previous character was
whitespace (so a maximal run yields one separator, not several). -/
def splitWsGo : Bool → List Char → List (List Char)
  | _, [] => [[]]
  | inWs, c :: cs =>
    if c.isWhitespace then
      if inWs then splitWsGo true cs else [] :: splitWsGo true cs
    else
      match splitWsGo false cs with
      | [] => [[c]]
      | w :: ws => (c :: w) :: ws

/-- JS `str.split(/\s+/)`: split on maximal whitespace runs. A leading or
trailing run contributes an empty token, and the empty string yields one empty
token, exactly as in JavaScript. -/
def splitWs (s : List Char) : List (List Char) := splitWsGo false s

theorem splitWsGo_ne_nil : ∀ (b : Bool) (s : List Char), splitWsGo b s ≠ []
  | _, [] => by simp [splitWsGo]
  | b, c :: cs => by
    rw [splitWsGo]
    split
    · split
      · exact splitWsGo_ne_nil true cs
      · simp
    · split <;> simp

/-- The word list `splitWs` returns is never empty: even `""` splits to
`[""]`, as in JavaScript. -/
theorem splitWs_ne_nil (s : List Char) : splitWs s ≠ [] := splitWsGo_ne_nil false s

/-! The hash-based embedding generator (`generateSimpleEmbedding` in
`generate_response.ts`). JS 32-bit integer coercion (`& 0xffffffff` after a
shifted multiply) is modelled exactly on ℤ. -/

/-- JS `ToInt32`: reduce an integer into the signed 32-bit range. -/
def jsToInt32 (n : ℤ) : ℤ := (n + 2 ^ 31) % 2 ^ 32 - 2 ^ 31

/-- One step of the rolling hash: `hash = ((hash << 5) - hash + charCode) & 0xffffffff`. -/
def jsHashStep (hash : ℤ) (c : Char) : ℤ :=
  jsToInt32 (jsToInt32 (hash * 32) - hash + c.toNat)

/-- The rolling hash of a word, starting from 0. -/
def jsHash (w : List Char) : ℤ := w.foldl jsHashStep 0

/-- `Math.abs(hash) % 128`: the bucket a word lands in. -/
def bucketIndex (w : List Char) : ℕ := (jsHash w).natAbs % 128

theorem bucketIndex_lt (w : List Char) : bucketIndex w < 128 :=
  Nat.mod_lt _ (by norm_num)

/-- Add `x` to entry `i` of a vector, leaving other entries unchanged. -/
def bump (v : ℕ → ℝ) (i : ℕ) (x : ℝ) : ℕ → ℝ :=
  fun j => if j = i then v j + x else v j

/-- Process one word: `embedding[index] += 1`, and a 0.3 spread into the
adjacent indices when they exist (`index > 0`, `index < 127`). -/
noncomputable def addWordToEmbedding (v : ℕ → ℝ) (w : List Char) : ℕ → ℝ :=
  let index := bucketIndex w
  let v1 := bump v index 1
  let v2 := if 0 < index then bump v1 (index - 1) 0.3 else v1
  if index < 127 then bump v2 (index + 1) 0.3 else v2

/-- The 128-entry accumulation array before normalization, as a function on
indices (entries outside `[0, 128)` are never bumped and stay 0). -/
noncomputable def preEmbedding (text : String) : ℕ → ℝ :=
  (splitWs (toLowerStr text.toList)).foldl addWordToEmbedding (fun _ => 0)

/-- The L2 norm `Math.sqrt(embedding.reduce((sum, val) => sum + val * val, 0))`. -/
noncomputable def embNorm (text : String) : ℝ :=
  Real.sqrt (∑ i ∈ Finset.range 128, preEmbedding text i * preEmbedding text i)

/-- `generateSimpleEmbedding`: hash words into 128 buckets with a 0.3 spread
to neighbours, then L2-normalize when the norm is positive. -/
noncomputable def generateSimpleEmbedding (text : String) : List ℝ :=
  if 0 < embNorm text then
    List.ofFn (fun i : Fin 128 => preEmbedding text i / embNorm text)
  else
    List.ofFn (fun i : Fin 128 => preEmbedding text i)

/-! Keyword extraction (`extractKeywords`). -/

/-- The fixed stop-word set of `extractKeywords`. -/
def stopWords : List (List Char) :=
  ["the", "is", "at", "which", "on", "a", "an", "and", "or", "but", "in",
   "with", "to", "for", "of", "as", "by"].map String.toList

/-- JS regex `\w`: ASCII letters, digits and underscore. -/
def wordChar (c : Char) : Bool := c.isAlphanum || c = '_'

/-- `extractKeywords`: lower-case, replace every character outside `[\w\s]`
by a space, split on whitespace, keep words longer than 2 characters that are
not stop words, and take the first 10. -/
def extractKeywords (text : String) : List (List Char) :=
  let cleaned := (toLowerStr text.toList).map fun c =>
    if wordChar c || c.isWhitespace then c else ' '
  ((splitWs cleaned).filter fun w =>
    decide (2 < w.length) && !(stopWords.contains w)).take 10

/-! The relevance scorer (`cosineSimilarity`, `calculateRelevanceScore`). -/

/-- `cosineSimilarity`: 0 when the lengths differ or either norm is 0, else
the dot product over the product of the Euclidean norms. -/
noncomputable def cosineSimilarity (a b : List ℝ) : ℝ :=
  if a.length ≠ b.length then 0
  else
    let dotProduct := (List.zipWith (fun x y => x * y) a b).sum
    let normA := (a.map fun x => x * x).sum
    let normB := (b.map fun x => x * x).sum
    if normA = 0 ∨ normB = 0 then 0
    else dotProduct / (Real.sqrt normA * Real.sqrt normB)

/-- JS `String.prototype.includes`, on character lists: `needle` occurs as a
contiguous substring of the haystack. -/
def containsSub (needle : List Char) : List Char → Bool
  | [] => needle.isEmpty
  | c :: rest => needle.isPrefixOf (c :: rest) || containsSub needle rest

/-- The scorer's text haystack: `(memory.summary + ' ' + memory.full_text).toLowerCase()`. -/
def memoryText (m : Memory) : List Char :=
  toLowerStr (m.summary ++ " " ++ m.full_text).toList

/-- JS `memory.confidence_score || 0.5`: `||` falls back on every falsy
value, so a stored confidence of 0 also yields 0.5 (unlike `?? 0.5`, which
would keep it). -/
noncomputable def confidenceFallback (c? : Option ℝ) : ℝ :=
  match c? with
  | none => 0.5
  | some c => if c = 0 then 0.5 else c

/-- The keyword component: matched keywords over `max(keywordCount, 1)`. -/
noncomputable def keywordOverlap (m : Memory) (keywords : List (List Char)) : ℝ :=
  ((keywords.filter fun k => containsSub k (memoryText m)).length : ℝ) /
    ((max keywords.length 1 : ℕ) : ℝ)

/-- The context component: context words longer than 2 characters found in
the memory text, over `max(contextWordCount, 1)` (the denominator counts all
split tokens, unfiltered). -/
noncomputable def contextOverlap (m : Memory) (conversationContext : String) : ℝ :=
  let contextWords := splitWs (toLowerStr conversationContext.toList)
  ((contextWords.filter fun w =>
      decide (2 < w.length) && containsSub w (memoryText m)).length : ℝ) /
    ((max contextWords.length 1 : ℕ) : ℝ)

/-- `calculateRelevanceScore`: semantic 40%, keyword 30%, context 20%,
stored confidence (with the `||`-fallback) 10%. -/
noncomputable def calculateRelevanceScore (memory : Memory) (userEmbedding : List ℝ)
    (keywords : List (List Char)) (conversationContext : String) : ℝ :=
  let semanticScore := cosineSimilarity memory.embedding userEmbedding
  let keywordMatches := (keywords.filter fun k => containsSub k (memoryText memory)).length
  let keywordScore := (keywordMatches : ℝ) / ((max keywords.length 1 : ℕ) : ℝ)
  let contextWords := splitWs (toLowerStr conversationContext.toList)
  let contextMatches := (contextWords.filter fun w =>
    decide (2 < w.length) && containsSub w (memoryText memory)).length
  let contextScore := (contextMatches : ℝ) / ((max contextWords.length 1 : ℕ) : ℝ)
  let confidenceScore := confidenceFallback memory.confidence_score
  semanticScore * 0.4 + keywordScore * 0.3 + contextScore * 0.2 + confidenceScore * 0.1

/-! The response composer (`generateResponseContent`). -/

/-- The fixed message returned when no relevant memory survives the filter. -/
def noMemoriesMessage : String :=
  "I understand your message, but I don't have specific memories that directly relate to this topic. Could you provide more context or ask me something else I might be able to help with based on our previous conversations?"

/-- `generateResponseContent`: the fixed no-memory message, or a templated
reply prefixed by memory-type framing and quoting the top 3 summaries. -/
def generateResponseContent (userMessage : String) (relevantMemories : List Memory)
    (_history : List ConversationTurn) : String :=
  if relevantMemories.length = 0 then noMemoriesMessage
  else
    let memoryTypes := relevantMemories.map (·.memory_type)
    let respPre :=
      if memoryTypes.contains MemoryType.episodic then "Based on what we've discussed before, "
      else if memoryTypes.contains MemoryType.semantic then "From what I know about this topic, "
      else if memoryTypes.contains MemoryType.emotional then "Considering the emotional context, "
      else if memoryTypes.contains MemoryType.valuePrinciple then "Given your values and principles, "
      else ""
    let memoryContext := String.intercalate ". " ((relevantMemories.take 3).map (·.summary))
    respPre ++ "I recall that " ++ memoryContext ++
      ". This seems relevant to your current question about \"" ++ userMessage ++
      "\". Would you like me to elaborate on any specific aspect, or is there something particular you'd like to know more about?"

/-! A stable descending sort, modelling `Array.prototype.sort` with the
comparator `(a, b) => key(b) - key(a)` (stable since ES2019: ties keep their
original relative order). Stability, sortedness and being a permutation
determine the output uniquely, so insertion sort is a faithful model. -/

/-- Insert `x` into a descending-sorted list, before the first element whose
key is not larger (so ties keep the earlier element first). -/
def insertDescBy {α β : Type _} [LinearOrder β] (key : α → β) (x : α) : List α → List α
  | [] => [x]
  | y :: ys => if key y ≤ key x then x :: y :: ys else y :: insertDescBy key x ys

/-- Stable descending sort by a key. -/
def sortDescBy {α β : Type _} [LinearOrder β] (key : α → β) (l : List α) : List α :=
  l.foldr (insertDescBy key) []

/-! The datastore operations `generateResponse` issues, in state-passing
style: a select returns the rows and the unchanged store. -/

/-- The session lookup: `where(id = sessionId and user_id = userId) limit 1`. -/
def dbSelectSessionFor (db : DB) (sessionId userId : Nat) : List ChatSession × DB :=
  ((db.sessions.filter fun s =>
    decide (s.id = sessionId) && decide (s.user_id = userId)).take 1, db)

/-- The candidate fetch: `where(user_id = userId) orderBy(desc(updated_at))
limit 50` (ties on `updated_at` modelled as keeping row order). -/
def dbSelectRecentMemories (db : DB) (userId : Nat) : List Memory × DB :=
  ((sortDescBy (fun m => m.updated_at)
    (db.memories.filter fun m => decide (m.user_id = userId))).take 50, db)

/-- JS `array.slice(-n)`: the last `n` elements. -/
def lastN {α : Type _} (n : Nat) (l : List α) : List α := l.drop (l.length - n)

/-- The trailing conversation context: the last 5 turns' contents joined by
spaces. -/
def buildConversationContext (history : List ConversationTurn) : String :=
  String.intercalate " " ((lastN 5 history).map (·.content))

/-- The candidate memory list `generateResponse` fetches for a user. -/
def fetchedMemories (db : DB) (userId : Nat) : List Memory :=
  (dbSelectRecentMemories db userId).1

/-- The relevance score a query assigns to a memory (the scorer applied to
the query embedding, keywords and trailing context of the input). -/
noncomputable def queryRelevance (input : GenerateResponseInput) (m : Memory) : ℝ :=
  calculateRelevanceScore m (generateSimpleEmbedding input.userMessage)
    (extractKeywords input.userMessage) (buildConversationContext input.conversationHistory)

/-- JS `parseFloat(x.toFixed(3))`: round to 3 decimal places. -/
noncomputable def round3 (x : ℝ) : ℝ := ((round (x * 1000) : ℤ) : ℝ) / 1000

/-- `generateResponse` in state-passing form: validate the session, embed the
message, extract keywords, build the trailing context, fetch up to 50 recent
memories, score and stably sort them, filter to score > 0.1, keep at most 5,
compose content, and compute the rounded confidence. The source computes
`relevantMemories` and `topRelevantMemories` by two identical filter-then-take
passes over the sorted array; they are one `let` here. -/
noncomputable def generateResponseSt (db : DB) (input : GenerateResponseInput) :
    Except String GeneratedResponse × DB :=
  let sdb := dbSelectSessionFor db input.sessionId input.userId
  if sdb.1.length = 0 then
    (Except.error "Chat session not found or access denied", sdb.2)
  else
    let userEmbedding := generateSimpleEmbedding input.userMessage
    let keywords := extractKeywords input.userMessage
    let conversationContext := buildConversationContext input.conversationHistory
    let mdb := dbSelectRecentMemories sdb.2 input.userId
    let memoriesWithScores := mdb.1.map fun memory =>
      (memory, calculateRelevanceScore memory userEmbedding keywords conversationContext)
    let sorted := sortDescBy (fun p => p.2) memoriesWithScores
    let filtered := sorted.filter fun p => decide ((0.1 : ℝ) < p.2)
    let relevantMemories := (filtered.take 5).map fun p => p.1
    let avgRelevanceScore :=
      if 0 < (filtered.take 5).length then
        ((filtered.take 5).map fun p => p.2).sum / ((filtered.take 5).length : ℝ)
      else 0
    let memoryQuantityFactor := min ((relevantMemories.length : ℝ) / 3) 1
    let confidence := min (avgRelevanceScore * 0.8 + memoryQuantityFactor * 0.2) 1
    let responseContent :=
      generateResponseContent input.userMessage relevantMemories input.conversationHistory
    (Except.ok { content := responseContent, relevantMemories := relevantMemories,
                 confidence := round3 confidence }, mdb.2)

/-- The handler's returned value. -/
noncomputable def generateResponse (db : DB) (input : GenerateResponseInput) :
    Except String GeneratedResponse :=
  (generateResponseSt db input).1

/-! Properties of `cosineSimilarity`. -/

theorem zipWith_mul_sum_eq (a b : List ℝ) :
    (List.zipWith (fun x y => x * y) a b).sum =
      ∑ i ∈ Finset.range (min a.length b.length), a.getD i 0 * b.getD i 0 := by
  induction a generalizing b with
  | nil => simp
  | cons x xs ih =>
    cases b with
    | nil => simp
    | cons y ys =>
      simp only [List.zipWith_cons_cons, List.sum_cons, ih, List.length_cons,
        Nat.succ_min_succ, Finset.sum_range_succ']
      simp [add_comm]

theorem map_sq_sum_eq (a : List ℝ) :
    (a.map fun x => x * x).sum = ∑ i ∈ Finset.range a.length, a.getD i 0 * a.getD i 0 := by
  induction a with
  | nil => simp
  | cons x xs ih =>
    simp only [List.map_cons, List.sum_cons, ih, List.length_cons, Finset.sum_range_succ']
    simp [add_comm]

theorem sq_sum_nonneg (a : List ℝ) : 0 ≤ (a.map fun x => x * x).sum :=
  List.sum_nonneg (by

    intro x hx
    obtain ⟨y, _, rfl⟩ := List.mem_map.1 hx
    exact mul_self_nonneg y)

/-- Cauchy-Schwarz for the scorer's list sums: the square of the dot product
is at most the product of the squared norms. -/
theorem dot_sq_le_norm_mul_norm (a b : List ℝ) (h : a.length = b.length) :
    (List.zipWith (fun x y => x * y) a b).sum ^ 2 ≤
      (a.map fun x => x * x).sum * (b.map fun x => x * x).sum := by
  rw [zipWith_mul_sum_eq, map_sq_sum_eq, map_sq_sum_eq, h, min_self]
  have := Finset.sum_mul_sq_le_sq_mul_sq (Finset.range b.length)
    (fun i => a.getD i 0) (fun i => b.getD i 0)
  calc (∑ i ∈ Finset.range b.length, a.getD i 0 * b.getD i 0) ^ 2
      ≤ (∑ i ∈ Finset.range b.length, a.getD i 0 ^ 2) *
          ∑ i ∈ Finset.range b.length, b.getD i 0 ^ 2 := this
    _ = (∑ i ∈ Finset.range b.length, a.getD i 0 * a.getD i 0) *
          ∑ i ∈ Finset.range b.length, b.getD i 0 * b.getD i 0 := by
        simp [sq]

/-- C6: for vectors of equal nonzero length the cosine lies in [-1, 1] and is
symmetric; on mismatched lengths or an all-zero vector it returns exactly 0
(a defined fallback, not an error). -/
theorem cosineSimilarity_props :
    (∀ a b : List ℝ, a.length = b.length → a.length ≠ 0 →
      cosineSimilarity a b ∈ Set.Icc (-1 : ℝ) 1 ∧
        cosineSimilarity a b = cosineSimilarity b a) ∧
    (∀ a b : List ℝ, a.length ≠ b.length → cosineSimilarity a b = 0) ∧
    (∀ a b : List ℝ, ((∀ x ∈ a, x = 0) ∨ (∀ x ∈ b, x = 0)) → cosineSimilarity a b = 0) := by
  have hzero : ∀ a b : List ℝ, ((∀ x ∈ a, x = 0) ∨ (∀ x ∈ b, x = 0)) →
      cosineSimilarity a b = 0 := by
    intro a b h
    simp only [cosineSimilarity]
    by_cases hl : a.length ≠ b.length
    · rw [if_pos hl]
    · rw [if_neg hl]
      have : (a.map fun x => x * x).sum = 0 ∨ (b.map fun x => x * x).sum = 0 := by
        rcases h with h | h
        · exact Or.inl (List.sum_eq_zero (by
            intro y hy
            obtain ⟨x, hx, rfl⟩ := List.mem_map.1 hy
            simp [h x hx]))
        · exact Or.inr (List.sum_eq_zero (by
            intro y hy
            obtain ⟨x, hx, rfl⟩ := List.mem_map.1 hy
            simp [h x hx]))
      rw [if_pos this]
  refine ⟨fun a b h _ => ⟨?_, ?_⟩, fun a b h => by
    simp only [cosineSimilarity]
    rw [if_pos h], hzero⟩
  · simp only [cosineSimilarity]
    rw [if_neg (by simp [h])]
    by_cases hz : (a.map fun x => x * x).sum = 0 ∨ (b.map fun x => x * x).sum = 0
    · rw [if_pos hz]
      constructor <;> norm_num
    · rw [if_neg hz]
      push_neg at hz
      obtain ⟨hA, hB⟩ := hz
      have hA' : 0 < (a.map fun x => x * x).sum :=
        lt_of_le_of_ne (sq_sum_nonneg a) (Ne.symm hA)
      have hB' : 0 < (b.map fun x => x * x).sum :=
        lt_of_le_of_ne (sq_sum_nonneg b) (Ne.symm hB)
      have habs : |(List.zipWith (fun x y => x * y) a b).sum| ≤
          Real.sqrt ((a.map fun x => x * x).sum) * Real.sqrt ((b.map fun x => x * x).sum) := by
        rw [← Real.sqrt_mul (sq_sum_nonneg a)]
        calc |(List.zipWith (fun x y => x * y) a b).sum|
            = Real.sqrt ((List.zipWith (fun x y => x * y) a b).sum ^ 2) :=
              (Real.sqrt_sq_eq_abs _).symm
          _ ≤ _ := Real.sqrt_le_sqrt (dot_sq_le_norm_mul_norm a b h)
      have hpos : 0 < Real.sqrt ((a.map fun x => x * x).sum) *
          Real.sqrt ((b.map fun x => x * x).sum) :=
        mul_pos (Real.sqrt_pos.2 hA') (Real.sqrt_pos.2 hB')
      rw [Set.mem_Icc, ← abs_le, abs_div, abs_of_pos hpos, div_le_one hpos]
      exact habs
  · have hd : (List.zipWith (fun x y => x * y) a b).sum =
        (List.zipWith (fun x y => x * y) b a).sum := by
      rw [List.zipWith_comm_of_comm _ mul_comm]
    simp only [cosineSimilarity]
    rw [if_neg (show ¬a.length ≠ b.length by simp [h]),
      if_neg (show ¬b.length ≠ a.length by simp [h])]
    by_cases hA : (a.map fun x => x * x).sum = 0 <;>
      by_cases hB : (b.map fun x => x * x).sum = 0
    · rw [if_pos (show (a.map fun x => x * x).sum = 0 ∨ (b.map fun x => x * x).sum = 0 from
          Or.inl hA),
        if_pos (show (b.map fun x => x * x).sum = 0 ∨ (a.map fun x => x * x).sum = 0 from
          Or.inl hB)]
    · rw [if_pos (show (a.map fun x => x * x).sum = 0 ∨ (b.map fun x => x * x).sum = 0 from
          Or.inl hA),
        if_pos (show (b.map fun x => x * x).sum = 0 ∨ (a.map fun x => x * x).sum = 0 from
          Or.inr hA)]
    · rw [if_pos (show (a.map fun x => x * x).sum = 0 ∨ (b.map fun x => x * x).sum = 0 from
          Or.inr hB),
        if_pos (show (b.map fun x => x * x).sum = 0 ∨ (a.map fun x => x * x).sum = 0 from
          Or.inl hB)]
    · rw [if_neg (show ¬((a.map fun x => x * x).sum = 0 ∨ (b.map fun x => x * x).sum = 0) by
          tauto),
        if_neg (show ¬((b.map fun x => x * x).sum = 0 ∨ (a.map fun x => x * x).sum = 0) by
          tauto),
        hd, mul_comm]

/-- Witness for C6: concrete inputs hitting each branch of the theorem. -/
theorem cosineSimilarity_props_witness :
    cosineSimilarity [1] [1] ∈ Set.Icc (-1 : ℝ) 1 ∧
      cosineSimilarity [1] [0, 0] = 0 ∧ cosineSimilarity [0] [1] = 0 :=
  ⟨(cosineSimilarity_props.1 [1] [1] rfl (by norm_num)).1,
   cosineSimilarity_props.2.1 [1] [0, 0] (by norm_num),
   cosineSimilarity_props.2.2 [0] [1] (Or.inl (by simp))⟩

/-! The relevance formula: claim C1 and C7. -/

/-- The relevance formula as the spec writes it, with a nullish-coalescing
fallback `memory.confidence ?? 0.5`: the stored confidence is used whenever it
is present, including when it is 0. The code's `||` differs on 0. -/
noncomputable def relevanceScoreNullish (memory : Memory) (userEmbedding : List ℝ)
    (keywords : List (List Char)) (conversationContext : String) : ℝ :=
  0.4 * cosineSimilarity memory.embedding userEmbedding +
    0.3 * keywordOverlap memory keywords +
    0.2 * contextOverlap memory conversationContext +
    0.1 * (match memory.confidence_score with | none => (0.5 : ℝ) | some c => c)

/-- A memory whose stored confidence is 0. -/
def zeroConfMemory : Memory :=
  { id := 1, user_id := 1, embedding := [], memory_type := MemoryType.semantic,
    summary := "s", full_text := "t", details := none, confidence_score := some 0,
    created_at := 0, updated_at := 0 }

/-- Counterexample to C1 as stated: on a memory with stored confidence 0 the
code (JS `||`) scores with the 0.5 fallback, while the claimed `??` formula
keeps the 0 — the two differ at this concrete input. -/
theorem relevance_zero_confidence_cex :
    calculateRelevanceScore zeroConfMemory [] [] "" ≠
      relevanceScoreNullish zeroConfMemory [] [] "" := by
  simp only [calculateRelevanceScore, relevanceScoreNullish, keywordOverlap, contextOverlap,
    confidenceFallback, cosineSimilarity, memoryText, zeroConfMemory, splitWs, splitWsGo,
    toLowerStr]
  norm_num

/-- C1 amended: the relevance score is the weighted sum with weights
0.4/0.3/0.2/0.1, where the confidence term uses the stored confidence when it
is present and nonzero, and 0.5 when it is absent or 0 (JS `||` fallback). -/
theorem calculateRelevanceScore_formula (m : Memory) (v : List ℝ)
    (K : List (List Char)) (c : String) :
    calculateRelevanceScore m v K c =
      0.4 * cosineSimilarity m.embedding v + 0.3 * keywordOverlap m K +
        0.2 * contextOverlap m c + 0.1 * confidenceFallback m.confidence_score := by
  simp only [calculateRelevanceScore, keywordOverlap, contextOverlap]
  ring

/-- C7: the context component equals the count of whitespace-separated words
of the trailing-context string (the last 5 turns' contents joined by spaces)
that are longer than 2 characters and occur case-insensitively in
`summary + " " + full_text`, divided by `max(contextWordCount, 1)`; and the
score weighs exactly that component by 0.2. -/
theorem contextOverlap_component (m : Memory) (v : List ℝ) (K : List (List Char))
    (history : List ConversationTurn) :
    contextOverlap m (buildConversationContext history) =
      (((splitWs (toLowerStr (buildConversationContext history).toList)).countP
          (fun w => decide (2 < w.length) && containsSub w (memoryText m)) : ℕ) : ℝ) /
        ((max (splitWs (toLowerStr (buildConversationContext history).toList)).length 1 : ℕ) : ℝ) ∧
    calculateRelevanceScore m v K (buildConversationContext history) =
      cosineSimilarity m.embedding v * 0.4 + keywordOverlap m K * 0.3 +
        contextOverlap m (buildConversationContext history) * 0.2 +
        confidenceFallback m.confidence_score * 0.1 := by
  constructor
  · simp only [contextOverlap, List.countP_eq_length_filter]
  · simp only [calculateRelevanceScore, keywordOverlap, contextOverlap]

/-! Lemmas about the stable descending sort. -/

theorem insertDescBy_perm {α β : Type _} [LinearOrder β] (key : α → β) (x : α)
    (l : List α) : (insertDescBy key x l).Perm (x :: l) := by
  induction l with
  | nil => rfl
  | cons y ys ih =>
    rw [insertDescBy]
    split
    · rfl
    · exact (ih.cons y).trans (List.Perm.swap x y ys)

theorem sortDescBy_perm {α β : Type _} [LinearOrder β] (key : α → β) (l : List α) :
    (sortDescBy key l).Perm l := by
  induction l with
  | nil => rfl
  | cons x xs ih =>
    exact (insertDescBy_perm key x (sortDescBy key xs)).trans (ih.cons x)

theorem pairwise_insertDescBy {α β : Type _} [LinearOrder β] (key : α → β) (x : α)
    (l : List α) (h : l.Pairwise fun a b => key b ≤ key a) :
    (insertDescBy key x l).Pairwise fun a b => key b ≤ key a := by
  induction l with
  | nil => simp [insertDescBy]
  | cons y ys ih =>
    rw [insertDescBy]
    split
    · rename_i hxy
      refine List.Pairwise.cons ?_ h
      intro z hz
      rcases List.mem_cons.1 hz with rfl | hz
      · exact hxy
      · exact le_trans ((List.pairwise_cons.1 h).1 z hz) hxy
    · rename_i hxy
      rw [List.pairwise_cons] at h
      refine List.Pairwise.cons ?_ (ih h.2)
      intro z hz
      have hz' := (insertDescBy_perm key x ys).mem_iff.1 hz
      rcases List.mem_cons.1 hz' with rfl | hz'
      · exact (not_le.1 hxy).le
      · exact h.1 z hz'

theorem sortDescBy_pairwise {α β : Type _} [LinearOrder β] (key : α → β) (l : List α) :
    (sortDescBy key l).Pairwise fun a b => key b ≤ key a := by
  induction l with
  | nil => simp [sortDescBy]
  | cons x xs ih => exact pairwise_insertDescBy key x _ ih

/-- Stability of the insertion step, phrased on key classes: inserting `x`
puts it in front of the elements with the same key. -/
theorem filter_insertDescBy {α β : Type _} [LinearOrder β] (key : α → β) (x : α)
    (l : List α) (s : β) :
    (insertDescBy key x l).filter (fun a => decide (key a = s)) =
      if key x = s then x :: l.filter (fun a => decide (key a = s))
      else l.filter (fun a => decide (key a = s)) := by
  induction l with
  | nil =>
    by_cases hx : key x = s <;> simp [insertDescBy, List.filter_cons, hx]
  | cons y ys ih =>
    rw [insertDescBy]
    split
    · rename_i hxy
      by_cases hx : key x = s <;> simp [List.filter_cons, hx]
    · rename_i hxy
      by_cases hy : key y = s <;> by_cases hx : key x = s
      · exact absurd (le_of_eq (hy.trans hx.symm)) hxy
      · simp [List.filter_cons, hx, hy, ih]
      · simp [List.filter_cons, hx, hy, ih]
      · simp [List.filter_cons, hx, hy, ih]

/-- Stability of the sort, phrased on key classes: elements sharing one key
come out exactly as they went in. -/
theorem filter_sortDescBy {α β : Type _} [LinearOrder β] (key : α → β) (l : List α)
    (s : β) :
    (sortDescBy key l).filter (fun a => decide (key a = s)) =
      l.filter (fun a => decide (key a = s)) := by
  induction l with
  | nil => rfl
  | cons x xs ih =>
    show (insertDescBy key x (sortDescBy key xs)).filter _ = _
    rw [filter_insertDescBy, List.filter_cons]
    by_cases hx : key x = s <;> simp [hx, ih]

/-! Named pieces of the retrieval pipeline, used to state theorems about
`generateResponse`. Each is definitionally the corresponding local of
`generateResponseSt`. -/

/-- The scored candidate list (step 6 of the handler). -/
noncomputable def scoredCandidates (db : DB) (input : GenerateResponseInput) :
    List (Memory × ℝ) :=
  (fetchedMemories db input.userId).map fun m => (m, queryRelevance input m)

/-- The sorted-then-filtered (score > 0.1) candidate list. -/
noncomputable def filteredSorted (db : DB) (input : GenerateResponseInput) :
    List (Memory × ℝ) :=
  (sortDescBy (fun p => p.2) (scoredCandidates db input)).filter fun p =>
    decide ((0.1 : ℝ) < p.2)

/-- The returned memory list: the top at most 5 of the filtered sorted
candidates, with the transient score dropped. -/
noncomputable def topMemories (db : DB) (input : GenerateResponseInput) : List Memory :=
  ((filteredSorted db input).take 5).map fun p => p.1

/-- The average relevance over the filtered-and-capped set (0 when empty). -/
noncomputable def codeAvgRelevance (db : DB) (input : GenerateResponseInput) : ℝ :=
  if 0 < ((filteredSorted db input).take 5).length then
    (((filteredSorted db input).take 5).map fun p => p.2).sum /
      ((((filteredSorted db input).take 5)).length : ℝ)
  else 0

/-- The returned confidence, as the code computes it. -/
noncomputable def codeConfidence (db : DB) (input : GenerateResponseInput) : ℝ :=
  round3 (min (codeAvgRelevance db input * 0.8 +
    min (((topMemories db input).length : ℝ) / 3) 1 * 0.2) 1)

/-- Unfolding of `generateResponse` into the named pipeline pieces. -/
theorem generateResponse_eq (db : DB) (input : GenerateResponseInput) :
    generateResponse db input =
      if (dbSelectSessionFor db input.sessionId input.userId).1.length = 0 then
        Except.error "Chat session not found or access denied"
      else
        Except.ok { content := generateResponseContent input.userMessage
                        (topMemories db input) input.conversationHistory,
                    relevantMemories := topMemories db input,
                    confidence := codeConfidence db input } := by
  unfold generateResponse generateResponseSt
  dsimp only
  rw [apply_ite Prod.fst]
  split <;> rfl

/-- On success, the result record is exactly the assembled pipeline output. -/
theorem generateResponse_ok_parts (db : DB) (input : GenerateResponseInput)
    (r : GeneratedResponse) (h : generateResponse db input = Except.ok r) :
    r = { content := generateResponseContent input.userMessage
                  (topMemories db input) input.conversationHistory,
          relevantMemories := topMemories db input,
          confidence := codeConfidence db input } := by
  rw [generateResponse_eq] at h
  split at h
  · exact absurd h (by simp)
  · exact (Except.ok.inj h).symm

/-- Pairs in the scored candidate list carry the query relevance of their
memory, which is drawn from the fetched candidates. -/
theorem mem_scoredCandidates (db : DB) (input : GenerateResponseInput)
    (p : Memory × ℝ) (hp : p ∈ scoredCandidates db input) :
    p.2 = queryRelevance input p.1 ∧ p.1 ∈ fetchedMemories db input.userId := by
  obtain ⟨m, hm, rfl⟩ := List.mem_map.1 hp
  exact ⟨rfl, hm⟩

/-- C2: on success the returned memory list has at most 5 elements, each with
relevance strictly above 0.1, in descending relevance order, ties keeping the
candidate fetch order (elements of one relevance class form a sublist of the
fetched candidates of that class); the transient score is not part of the
returned `Memory` records. -/
theorem generateResponse_retrieval (db : DB) (input : GenerateResponseInput)
    (r : GeneratedResponse) (h : generateResponse db input = Except.ok r) :
    r.relevantMemories.length ≤ 5 ∧
    (∀ m ∈ r.relevantMemories, (0.1 : ℝ) < queryRelevance input m) ∧
    r.relevantMemories.Pairwise
      (fun m₁ m₂ => queryRelevance input m₂ ≤ queryRelevance input m₁) ∧
    (∀ s : ℝ, (r.relevantMemories.filter fun m => decide (queryRelevance input m = s)).Sublist
      ((fetchedMemories db input.userId).filter fun m =>
        decide (queryRelevance input m = s))) := by
  have hr : r.relevantMemories = topMemories db input := by
    rw [generateResponse_ok_parts db input r h]
  have hmem_sorted : ∀ p ∈ sortDescBy (fun p : Memory × ℝ => p.2) (scoredCandidates db input),
      p.2 = queryRelevance input p.1 ∧ p.1 ∈ fetchedMemories db input.userId := by
    intro p hp
    exact mem_scoredCandidates db input p
      ((sortDescBy_perm (fun p : Memory × ℝ => p.2) (scoredCandidates db input)).subset hp)
  have hmem_filtered : ∀ p ∈ filteredSorted db input,
      ((0.1 : ℝ) < p.2 ∧ p.2 = queryRelevance input p.1) ∧
        p.1 ∈ fetchedMemories db input.userId := by
    intro p hp
    obtain ⟨hp', hgt⟩ := List.mem_filter.1 hp
    obtain ⟨h1, h2⟩ := hmem_sorted p hp'
    exact ⟨⟨by simpa using hgt, h1⟩, h2⟩
  have hmem_take : ∀ p ∈ (filteredSorted db input).take 5, p ∈ filteredSorted db input :=
    fun p hp => (List.take_sublist 5 _).mem hp
  refine ⟨?_, ?_, ?_, ?_⟩
  · rw [hr]
    simp only [topMemories, List.length_map]
    exact List.length_take_le 5 (filteredSorted db input)
  · rw [hr]
    intro m hm
    obtain ⟨p, hp, rfl⟩ := List.mem_map.1 hm
    obtain ⟨⟨hgt, hq⟩, _⟩ := hmem_filtered p (hmem_take p hp)
    exact hq ▸ hgt
  · rw [hr]
    unfold topMemories
    rw [List.pairwise_map]
    have hsorted : (sortDescBy (fun p : Memory × ℝ => p.2)
        (scoredCandidates db input)).Pairwise fun a b => b.2 ≤ a.2 :=
      sortDescBy_pairwise _ _
    have hfs : (filteredSorted db input).Pairwise fun a b => b.2 ≤ a.2 :=
      hsorted.sublist (List.filter_sublist _)
    have htk : ((filteredSorted db input).take 5).Pairwise fun a b => b.2 ≤ a.2 :=
      hfs.sublist (List.take_sublist 5 _)
    refine List.Pairwise.imp_of_mem ?_ htk
    intro a b ha hb hab
    obtain ⟨⟨_, hqa⟩, _⟩ := hmem_filtered a (hmem_take a ha)
    obtain ⟨⟨_, hqb⟩, _⟩ := hmem_filtered b (hmem_take b hb)
    exact hqb ▸ hqa ▸ hab
  · intro s
    rw [hr]
    unfold topMemories
    rw [List.filter_map]
    have hstep1 : (((filteredSorted db input).take 5).filter
        ((fun m => decide (queryRelevance input m = s)) ∘ fun p => p.1)).Sublist
        ((filteredSorted db input).filter
          ((fun m => decide (queryRelevance input m = s)) ∘ fun p => p.1)) :=
      (List.take_sublist 5 _).filter _
    have hstep2 : ((filteredSorted db input).filter
        ((fun m => decide (queryRelevance input m = s)) ∘ fun p => p.1)).Sublist
        ((sortDescBy (fun p : Memory × ℝ => p.2) (scoredCandidates db input)).filter
          ((fun m => decide (queryRelevance input m = s)) ∘ fun p => p.1)) :=
      (List.filter_sublist _).filter _
    have hstep3 : (sortDescBy (fun p : Memory × ℝ => p.2) (scoredCandidates db input)).filter
        ((fun m => decide (queryRelevance input m = s)) ∘ fun p => p.1) =
        (scoredCandidates db input).filter fun p => decide (p.2 = s) := by
      rw [List.filter_congr (fun p hp => ?_), filter_sortDescBy (fun p : Memory × ℝ => p.2)]
      obtain ⟨hq, _⟩ := hmem_sorted p hp
      simp [hq]
    have hstep4 : (scoredCandidates db input).filter (fun p => decide (p.2 = s)) =
        ((fetchedMemories db input.userId).filter fun m =>
          decide (queryRelevance input m = s)).map fun m => (m, queryRelevance input m) := by
      unfold scoredCandidates
      rw [List.filter_map]
      rfl
    have := (hstep1.trans hstep2).map (fun p : Memory × ℝ => p.1)
    rw [hstep3, hstep4] at this
    simpa [List.map_map, Function.comp_def] using this

/-! Sample data for concrete witnesses. -/

/-- A one-session datastore with no memories. -/
def sampleDb : DB :=
  { users := [],
    sessions := [{ id := 1, user_id := 1, title := none, created_at := 0, updated_at := 0 }],
    messages := [], memories := [] }

/-- A query by user 1 in session 1 with empty history. -/
def sampleInput : GenerateResponseInput :=
  { userId := 1, sessionId := 1, userMessage := "hi", conversationHistory := [] }

/-- What `generateResponse` returns on the sample store. -/
noncomputable def sampleResponse : GeneratedResponse :=
  { content := noMemoriesMessage, relevantMemories := [], confidence := 0 }

theorem sample_eval :
    generateResponse sampleDb sampleInput = Except.ok sampleResponse := by
  rw [generateResponse_eq, if_neg (by decide)]
  have htop : topMemories sampleDb sampleInput = [] := rfl
  have havg : codeAvgRelevance sampleDb sampleInput = 0 := rfl
  have hconf : codeConfidence sampleDb sampleInput = 0 := by
    rw [codeConfidence, havg, htop]
    norm_num [round3]
  rw [htop, hconf]
  rfl

/-- Witness for C2: the retrieval bounds at the concrete sample store. -/
theorem generateResponse_retrieval_witness :
    sampleResponse.relevantMemories.length ≤ 5 ∧
    (∀ m ∈ sampleResponse.relevantMemories, (0.1 : ℝ) < queryRelevance sampleInput m) ∧
    sampleResponse.relevantMemories.Pairwise
      (fun m₁ m₂ => queryRelevance sampleInput m₂ ≤ queryRelevance sampleInput m₁) ∧
    (∀ s : ℝ, (sampleResponse.relevantMemories.filter fun m =>
        decide (queryRelevance sampleInput m = s)).Sublist
      ((fetchedMemories sampleDb sampleInput.userId).filter fun m =>
        decide (queryRelevance sampleInput m = s))) :=
  generateResponse_retrieval sampleDb sampleInput sampleResponse sample_eval

/-! Claim C8: the session guard. -/

/-- C8: when no stored session has this id and owner — the session is missing
or belongs to another user — the call fails with an explicit error; both
causes produce the same message. -/
theorem generateResponse_session_guard (db : DB) (input : GenerateResponseInput)
    (h : ∀ s ∈ db.sessions, ¬(s.id = input.sessionId ∧ s.user_id = input.userId)) :
    generateResponse db input =
      Except.error "Chat session not found or access denied" := by
  rw [generateResponse_eq, if_pos]
  have hnil : (db.sessions.filter fun s =>
      decide (s.id = input.sessionId) && decide (s.user_id = input.userId)) = [] := by
    rw [List.filter_eq_nil_iff]
    intro s hs
    simpa using h s hs
  simp [dbSelectSessionFor, hnil]

/-- An empty datastore. -/
def emptyDb : DB := { users := [], sessions := [], messages := [], memories := [] }

/-- Witness for C8: the empty store holds no matching session. -/
theorem generateResponse_session_guard_witness :
    generateResponse emptyDb sampleInput =
      Except.error "Chat session not found or access denied" :=
  generateResponse_session_guard emptyDb sampleInput (by simp [emptyDb])

/-! Claim C9: no side effects. -/

/-- C9: `generateResponse` never writes: the datastore coming out of the call
(error or success path alike) is the datastore that went in. -/
theorem generateResponse_no_side_effects (db : DB) (input : GenerateResponseInput) :
    (generateResponseSt db input).2 = db := by
  unfold generateResponseSt
  dsimp only
  rw [apply_ite Prod.snd]
  split <;> rfl

/-! Claim C5: the empty-retrieval path is a normal result. -/

/-- The spec's reply pattern `/don't have specific memories|provide more
context/i`, as a case-insensitive substring test. -/
def containsNoMemoryPhrase (s : String) : Bool :=
  containsSub "don't have specific memories".toList (toLowerStr s.toList) ||
    containsSub "provide more context".toList (toLowerStr s.toList)

/-- C5: when no fetched memory scores above 0.1 (in particular when the user
has no memories), a successful call returns an empty memory list, confidence
below 0.5, and content matching the no-memory pattern — not an error. -/
theorem generateResponse_no_relevant (db : DB) (input : GenerateResponseInput)
    (r : GeneratedResponse)
    (hs : ∀ m ∈ fetchedMemories db input.userId, queryRelevance input m ≤ 0.1)
    (h : generateResponse db input = Except.ok r) :
    r.relevantMemories = [] ∧ r.confidence < 0.5 ∧
      containsNoMemoryPhrase r.content = true := by
  have hfs : filteredSorted db input = [] := by
    rw [filteredSorted, List.filter_eq_nil_iff]
    intro p hp
    have hp' := mem_scoredCandidates db input p
      ((sortDescBy_perm (fun p : Memory × ℝ => p.2) (scoredCandidates db input)).subset hp)
    have hle := hs p.1 hp'.2
    rw [hp'.1]
    simpa using not_lt.2 hle
  have htop : topMemories db input = [] := by rw [topMemories, hfs]; rfl
  have havg : codeAvgRelevance db input = 0 := by rw [codeAvgRelevance, hfs]; rfl
  have hconf : codeConfidence db input = 0 := by
    rw [codeConfidence, havg, htop]
    norm_num [round3]
  obtain rfl := generateResponse_ok_parts db input r h
  refine ⟨htop, ?_, ?_⟩
  · show codeConfidence db input < 0.5
    rw [hconf]
    norm_num
  · show containsNoMemoryPhrase (generateResponseContent input.userMessage
      (topMemories db input) input.conversationHistory) = true
    rw [htop, show generateResponseContent input.userMessage []
      input.conversationHistory = noMemoriesMessage from rfl]
    decide

/-- Witness for C5 at the sample store (no memories at all). -/
theorem generateResponse_no_relevant_witness :
    sampleResponse.relevantMemories = [] ∧ sampleResponse.confidence < 0.5 ∧
      containsNoMemoryPhrase sampleResponse.content = true :=
  generateResponse_no_relevant sampleDb sampleInput sampleResponse
    (fun m hm => absurd hm (by
      rw [show fetchedMemories sampleDb sampleInput.userId = [] from rfl]
      simp))
    sample_eval

/-! Claim C4: the confidence formula. -/

/-- C4 amended: the returned confidence is
`round3 (min (avg * 0.8 + min (n / 3, 1) * 0.2, 1))` where `n` is the number
of returned memories and `avg` (`codeAvgRelevance`) is the mean score over the
filtered (> 0.1) list capped at its first 5 elements — the same capped set the
returned memories come from, not the whole filtered set. -/
theorem generateResponse_confidence (db : DB) (input : GenerateResponseInput)
    (r : GeneratedResponse) (h : generateResponse db input = Except.ok r) :
    r.confidence = round3 (min (codeAvgRelevance db input * 0.8 +
      min ((r.relevantMemories.length : ℝ) / 3) 1 * 0.2) 1) := by
  obtain rfl := generateResponse_ok_parts db input r h
  rfl

/-- Witness for C4's amended formula at the sample store. -/
theorem generateResponse_confidence_witness :
    sampleResponse.confidence = round3 (min (codeAvgRelevance sampleDb sampleInput * 0.8 +
      min ((sampleResponse.relevantMemories.length : ℝ) / 3) 1 * 0.2) 1) :=
  generateResponse_confidence sampleDb sampleInput sampleResponse sample_eval

/-! Counterexample data for C4: six memories that all pass the 0.1 filter
with unequal scores, so that the average over the whole filtered set differs
from the average over its first 5 elements. -/

/-- The confidence as claim C4 states it: the average relevance is taken over
the whole filtered (> 0.1) set — not capped at 5 — while `n` still counts the
returned memories. Written from the spec's sentence for comparison with the
code. -/
noncomputable def claimedConfidence (db : DB) (input : GenerateResponseInput) : ℝ :=
  let filteredAll := filteredSorted db input
  let avg := if 0 < filteredAll.length then
      (filteredAll.map fun p => p.2).sum / (filteredAll.length : ℝ) else 0
  round3 (min (avg * 0.8 + min (((topMemories db input).length : ℝ) / 3) 1 * 0.2) 1)

/-- A memory matching the query keyword `hello`, with an empty stored
embedding (so the cosine term is the length-mismatch fallback 0) and a given
stored confidence. -/
def confMemory (i : Nat) (c : ℝ) : Memory :=
  { id := i, user_id := 1, embedding := [], memory_type := MemoryType.semantic,
    summary := "hello", full_text := "hello", details := none,
    confidence_score := some c, created_at := 0, updated_at := 100 - i }

/-- Six such memories: five with confidence 1 (score 0.4) and one with
confidence 0.5 (score 0.35), most recently updated first. -/
noncomputable def sixMemoryDb : DB :=
  { users := [],
    sessions := [{ id := 1, user_id := 1, title := none, created_at := 0, updated_at := 0 }],
    messages := [],
    memories := [confMemory 1 1, confMemory 2 1, confMemory 3 1,
      confMemory 4 1, confMemory 5 1, confMemory 6 0.5] }

/-- The query `hello` by user 1 in session 1. -/
def helloInput : GenerateResponseInput :=
  { userId := 1, sessionId := 1, userMessage := "hello", conversationHistory := [] }

theorem length_generateSimpleEmbedding (t : String) :
    (generateSimpleEmbedding t).length = 128 := by
  unfold generateSimpleEmbedding
  split <;> simp

theorem cosine_empty_embedding (t : String) :
    cosineSimilarity [] (generateSimpleEmbedding t) = 0 := by
  unfold cosineSimilarity
  rw [if_pos]
  simp [length_generateSimpleEmbedding]

theorem score_confMemory (i : Nat) (c : ℝ) (hc : c ≠ 0) :
    queryRelevance helloInput (confMemory i c) = 0.3 + c * 0.1 := by
  unfold queryRelevance calculateRelevanceScore
  dsimp only
  rw [show (confMemory i c).embedding = [] from rfl, cosine_empty_embedding,
    show extractKeywords helloInput.userMessage = ["hello".toList] from by decide,
    show buildConversationContext helloInput.conversationHistory = "" from rfl,
    show (confMemory i c).confidence_score = some c from rfl,
    show memoryText (confMemory i c) = "hello hello".toList from rfl]
  rw [show (["hello".toList].filter fun k => containsSub k "hello hello".toList) =
    ["hello".toList] from by decide]
  rw [show (splitWs (toLowerStr "".toList)).filter (fun w =>
      decide (2 < w.length) && containsSub w "hello hello".toList) = [] from by decide]
  rw [confidenceFallback, if_neg hc]
  norm_num

/-- A list already sorted descending is a fixed point of the stable sort. -/
theorem sortDescBy_of_sorted {α β : Type _} [LinearOrder β] (key : α → β) (l : List α)
    (h : l.Pairwise fun a b => key b ≤ key a) : sortDescBy key l = l := by
  induction l with
  | nil => rfl
  | cons x xs ih =>
    rw [List.pairwise_cons] at h
    show insertDescBy key x (sortDescBy key xs) = x :: xs
    rw [ih h.2]
    cases xs with
    | nil => rfl
    | cons y ys => rw [insertDescBy, if_pos (h.1 y (List.mem_cons_self y ys))]

theorem six_fetched : fetchedMemories sixMemoryDb helloInput.userId =
    [confMemory 1 1, confMemory 2 1, confMemory 3 1, confMemory 4 1,
     confMemory 5 1, confMemory 6 0.5] := rfl

theorem six_scored : scoredCandidates sixMemoryDb helloInput =
    [(confMemory 1 1, (0.4 : ℝ)), (confMemory 2 1, 0.4), (confMemory 3 1, 0.4),
     (confMemory 4 1, 0.4), (confMemory 5 1, 0.4), (confMemory 6 0.5, 0.35)] := by
  rw [scoredCandidates, six_fetched]
  simp only [List.map_cons, List.map_nil]
  rw [score_confMemory 1 1 one_ne_zero, score_confMemory 2 1 one_ne_zero,
    score_confMemory 3 1 one_ne_zero, score_confMemory 4 1 one_ne_zero,
    score_confMemory 5 1 one_ne_zero, score_confMemory 6 0.5 (by norm_num)]
  norm_num

theorem six_filtered : filteredSorted sixMemoryDb helloInput =
    [(confMemory 1 1, (0.4 : ℝ)), (confMemory 2 1, 0.4), (confMemory 3 1, 0.4),
     (confMemory 4 1, 0.4), (confMemory 5 1, 0.4), (confMemory 6 0.5, 0.35)] := by
  rw [filteredSorted, six_scored, sortDescBy_of_sorted _ _ (by
    norm_num [List.pairwise_cons])]
  rw [List.filter_eq_self]
  intro p hp
  simp only [List.mem_cons, List.not_mem_nil, or_false] at hp
  rcases hp with rfl | rfl | rfl | rfl | rfl | rfl <;>
    (simp only [decide_eq_true_eq]; norm_num)

theorem six_top5 : (filteredSorted sixMemoryDb helloInput).take 5 =
    [(confMemory 1 1, (0.4 : ℝ)), (confMemory 2 1, 0.4), (confMemory 3 1, 0.4),
     (confMemory 4 1, 0.4), (confMemory 5 1, 0.4)] := by
  rw [six_filtered]
  rfl

theorem six_top_len : (topMemories sixMemoryDb helloInput).length = 5 := by
  rw [topMemories, six_top5]
  rfl

theorem six_avg : codeAvgRelevance sixMemoryDb helloInput = 0.4 := by
  rw [codeAvgRelevance, six_top5]
  norm_num

theorem six_conf_code : (generateResponse sixMemoryDb helloInput).map
    GeneratedResponse.confidence = Except.ok 0.52 := by
  have hcc : codeConfidence sixMemoryDb helloInput = 0.52 := by
    rw [codeConfidence, six_avg, six_top_len, round3]
    rw [min_eq_right (by norm_num : (1 : ℝ) ≤ ((5 : ℕ) : ℝ) / 3)]
    rw [show min ((0.4 : ℝ) * 0.8 + 1 * 0.2) 1 = 0.52 by
      rw [min_eq_left (by norm_num)]; norm_num]
    rw [show (0.52 : ℝ) * 1000 = ((520 : ℤ) : ℝ) by norm_num, round_intCast]
    norm_num
  rw [generateResponse_eq, if_neg (by decide)]
  simp [Except.map, hcc]

theorem six_conf_claimed : claimedConfidence sixMemoryDb helloInput = 0.513 := by
  rw [claimedConfidence]
  rw [six_filtered, six_top_len]
  rw [show (0.513 : ℝ) = ((513 : ℤ) : ℝ) / 1000 by norm_num]
  rw [min_eq_right (by norm_num : (1 : ℝ) ≤ ((5 : ℕ) : ℝ) / 3)]
  have havg : (if 0 < ([(confMemory 1 1, (0.4 : ℝ)), (confMemory 2 1, 0.4),
      (confMemory 3 1, 0.4), (confMemory 4 1, 0.4), (confMemory 5 1, 0.4),
      (confMemory 6 0.5, 0.35)] : List (Memory × ℝ)).length then
      (([(confMemory 1 1, (0.4 : ℝ)), (confMemory 2 1, 0.4), (confMemory 3 1, 0.4),
        (confMemory 4 1, 0.4), (confMemory 5 1, 0.4),
        (confMemory 6 0.5, 0.35)] : List (Memory × ℝ)).map fun p => p.2).sum /
        ((([(confMemory 1 1, (0.4 : ℝ)), (confMemory 2 1, 0.4), (confMemory 3 1, 0.4),
          (confMemory 4 1, 0.4), (confMemory 5 1, 0.4),
          (confMemory 6 0.5, 0.35)] : List (Memory × ℝ)).length) : ℝ)
      else 0) = 47 / 120 := by norm_num
  rw [havg]
  rw [show min ((47 : ℝ) / 120 * 0.8 + 1 * 0.2) 1 = 77 / 150 by
    rw [min_eq_left (by norm_num)]; norm_num]
  rw [round3]
  have hfl : round ((77 : ℝ) / 150 * 1000) = 513 := by
    rw [round_eq, show (77 : ℝ) / 150 * 1000 + 1 / 2 = 3083 / 6 by norm_num]
    rw [show (3083 : ℝ) / 6 = 513 + 5 / 6 by norm_num]
    rw [Int.floor_eq_iff]
    constructor <;> norm_num
  rw [hfl]

/-- Counterexample to C4 as stated: with six memories passing the 0.1 filter
at unequal scores, the code's returned confidence (averaging over the top-5
slice) is 0.52, while the claimed formula (averaging over the whole filtered
set) yields 0.513. -/
theorem generateResponse_confidence_cex :
    (generateResponse sixMemoryDb helloInput).map GeneratedResponse.confidence =
      Except.ok 0.52 ∧
    claimedConfidence sixMemoryDb helloInput = 0.513 ∧ ((0.52 : ℝ) ≠ 0.513) :=
  ⟨six_conf_code, six_conf_claimed, by norm_num⟩

/-! Claim C10: the embedding generator always normalizes. -/

theorem addWordToEmbedding_eq (v : ℕ → ℝ) (w : List Char) :
    addWordToEmbedding v w =
      (if bucketIndex w < 127 then
        bump (if 0 < bucketIndex w then
            bump (bump v (bucketIndex w) 1) (bucketIndex w - 1) 0.3
          else bump v (bucketIndex w) 1) (bucketIndex w + 1) 0.3
      else if 0 < bucketIndex w then
          bump (bump v (bucketIndex w) 1) (bucketIndex w - 1) 0.3
        else bump v (bucketIndex w) 1) := rfl

theorem bump_le (v : ℕ → ℝ) (i : ℕ) (x : ℝ) (hx : 0 ≤ x) (j : ℕ) :
    v j ≤ bump v i x j := by
  unfold bump
  split
  · linarith
  · exact le_refl _

theorem addWordToEmbedding_le (v : ℕ → ℝ) (w : List Char) (j : ℕ) :
    v j ≤ addWordToEmbedding v w j := by
  rw [addWordToEmbedding_eq]
  set u := (if 0 < bucketIndex w then
      bump (bump v (bucketIndex w) 1) (bucketIndex w - 1) 0.3
    else bump v (bucketIndex w) 1) with hu
  have h2 : bump v (bucketIndex w) 1 j ≤ u j := by
    rw [hu]
    split
    · exact bump_le _ _ _ (by norm_num) j
    · exact le_refl _
  refine le_trans (le_trans (bump_le v _ 1 one_pos.le j) h2) ?_
  split
  · exact bump_le _ _ _ (by norm_num) j
  · exact le_refl _

/-- The word's own bucket gains at least 1. -/
theorem addWordToEmbedding_bump (v : ℕ → ℝ) (w : List Char) :
    v (bucketIndex w) + 1 ≤ addWordToEmbedding v w (bucketIndex w) := by
  rw [addWordToEmbedding_eq]
  have h1 : v (bucketIndex w) + 1 = bump v (bucketIndex w) 1 (bucketIndex w) := by
    unfold bump
    rw [if_pos rfl]
  set u := (if 0 < bucketIndex w then
      bump (bump v (bucketIndex w) 1) (bucketIndex w - 1) 0.3
    else bump v (bucketIndex w) 1) with hu
  have h2 : bump v (bucketIndex w) 1 (bucketIndex w) ≤ u (bucketIndex w) := by
    rw [hu]
    split
    · exact bump_le _ _ _ (by norm_num) _
    · exact le_refl _
  refine le_trans (le_of_eq h1) (le_trans h2 ?_)
  split
  · exact bump_le _ _ _ (by norm_num) _
  · exact le_refl _

theorem foldl_addWord_le (ws : List (List Char)) (v : ℕ → ℝ) (j : ℕ) :
    v j ≤ (ws.foldl addWordToEmbedding v) j := by
  induction ws generalizing v with
  | nil => exact le_refl _
  | cons w ws ih => exact le_trans (addWordToEmbedding_le v w j) (ih _)

theorem preEmbedding_nonneg (t : String) (j : ℕ) : 0 ≤ preEmbedding t j := by
  unfold preEmbedding
  simpa using foldl_addWord_le (splitWs (toLowerStr t.toList)) (fun _ => 0) j

/-- Some bucket below 128 reaches at least 1: the word list is never empty and
the first word's bucket gets its `+= 1`. -/
theorem preEmbedding_first (t : String) : ∃ j < 128, 1 ≤ preEmbedding t j := by
  obtain ⟨w, ws, hw⟩ := List.exists_cons_of_ne_nil (splitWs_ne_nil (toLowerStr t.toList))
  refine ⟨bucketIndex w, bucketIndex_lt w, ?_⟩
  unfold preEmbedding
  rw [hw, List.foldl_cons]
  refine le_trans ?_ (foldl_addWord_le ws _ _)
  simpa using addWordToEmbedding_bump (fun _ => 0) w

/-- The accumulated norm is always positive: the zero-norm fallback branch of
`generateSimpleEmbedding` is unreachable. -/
theorem embNorm_pos (t : String) : 0 < embNorm t := by
  unfold embNorm
  rw [Real.sqrt_pos]
  obtain ⟨j, hj, h1⟩ := preEmbedding_first t
  calc (0 : ℝ) < 1 := one_pos
    _ ≤ preEmbedding t j * preEmbedding t j := by nlinarith
    _ ≤ ∑ i ∈ Finset.range 128, preEmbedding t i * preEmbedding t i :=
        Finset.single_le_sum (fun i _ => mul_self_nonneg (preEmbedding t i))
          (Finset.mem_range.2 hj)

/-- C10: for every input string — the empty string included — the embedding
has exactly 128 entries, every entry is nonnegative, its L2 norm is exactly 1,
and the pre-normalization norm is positive, so the zero-norm fallback branch
is never taken. -/
theorem generateSimpleEmbedding_props (text : String) :
    (generateSimpleEmbedding text).length = 128 ∧
    (∀ x ∈ generateSimpleEmbedding text, 0 ≤ x) ∧
    Real.sqrt (((generateSimpleEmbedding text).map fun x => x * x).sum) = 1 ∧
    0 < embNorm text := by
  have hpos := embNorm_pos text
  have hS : (0 : ℝ) < ∑ i ∈ Finset.range 128, preEmbedding text i * preEmbedding text i :=
    Real.sqrt_pos.1 hpos
  have hgen : generateSimpleEmbedding text =
      List.ofFn (fun i : Fin 128 => preEmbedding text i / embNorm text) := by
    unfold generateSimpleEmbedding
    rw [if_pos hpos]
  refine ⟨length_generateSimpleEmbedding text, ?_, ?_, hpos⟩
  · rw [hgen]
    intro x hx
    obtain ⟨i, rfl⟩ := Set.mem_range.1 ((List.mem_ofFn _ _).1 hx)
    exact div_nonneg (preEmbedding_nonneg text i) hpos.le
  · rw [hgen, List.map_ofFn, List.sum_ofFn]
    have hsum : ∑ i : Fin 128, ((fun x => x * x) ∘ fun i : Fin 128 =>
        preEmbedding text i.val / embNorm text) i =
        (∑ i ∈ Finset.range 128, preEmbedding text i * preEmbedding text i) /
          (embNorm text * embNorm text) := by
      rw [← Fin.sum_univ_eq_sum_range (fun i => preEmbedding text i * preEmbedding text i) 128,
        Finset.sum_div]
      refine Finset.sum_congr rfl fun i _ => ?_
      simp [Function.comp, div_mul_div_comm]
    rw [hsum]
    have hnn : embNorm text * embNorm text =
        ∑ i ∈ Finset.range 128, preEmbedding text i * preEmbedding text i := by
      unfold embNorm
      exact Real.mul_self_sqrt hS.le
    rw [hnn, div_self hS.ne', Real.sqrt_one]

/-! The extraction pipeline (claim C3), embedded from the `processConversation`
document in `src/server/src/handlers/update_memory.ts` (lines 54-262):
`MEMORY_PATTERNS`, `generateEmbedding`, `extractMemories`,
`processConversation` and `calculateTextSimilarity`. The `Math.random()` calls
that assign extraction confidence are modelled by an ambient sequence
`rand : ℕ → ℝ` of draw results consumed in emission order, and the row
timestamps and `new Date().toISOString()` by a `now` parameter. -/

/-- One alternation `/a|b|.../i` of `MEMORY_PATTERNS`, as a predicate on the
lower-cased sentence: some alternative occurs as a substring. -/
def regexAny (alts : List String) (s : List Char) : Bool :=
  alts.any fun p => containsSub p.toList s

/-- The regex piece `at \d`: the characters `at ` followed by a digit. -/
def atDigit (s : List Char) : Bool :=
  regexAny ["at 0", "at 1", "at 2", "at 3", "at 4", "at 5", "at 6", "at 7",
    "at 8", "at 9"] s

/-- `MEMORY_PATTERNS.semantic` (`update_memory.ts` lines 72-77). -/
def semanticPatterns : List (List Char → Bool) :=
  [regexAny ["i like", "i love", "i enjoy", "i prefer", "i hate", "i dislike"],
   regexAny ["my favorite", "my preferred", "i always", "i never"],
   regexAny ["i am", "i'm a", "i work as", "i study"],
   regexAny ["i believe", "i think that", "in my opinion"]]

/-- `MEMORY_PATTERNS.episodic` (lines 78-83). -/
def episodicPatterns : List (List Char → Bool) :=
  [regexAny ["yesterday", "today", "last week", "last month", "when i was"],
   regexAny ["i went to", "i visited", "i met", "i did", "i saw"],
   regexAny ["it happened", "that time when", "i remember when"],
   fun s => atDigit s || regexAny ["on monday", "on tuesday", "on wednesday",
     "on thursday", "on friday", "on saturday", "on sunday"] s]

/-- `MEMORY_PATTERNS.procedural` (lines 84-89). -/
def proceduralPatterns : List (List Char → Bool) :=
  [regexAny ["how to", "the way i", "i usually", "my routine", "my process"],
   regexAny ["step by step", "first i", "then i", "finally i"],
   regexAny ["my habit", "i typically", "i normally"],
   regexAny ["the best way to", "my approach is"]]

/-- `MEMORY_PATTERNS.emotional` (lines 90-95). -/
def emotionalPatterns : List (List Char → Bool) :=
  [regexAny ["i feel", "i felt", "i'm feeling", "i was feeling"],
   regexAny ["made me happy", "made me sad", "frustrated", "excited", "nervous",
     "anxious"],
   regexAny ["i'm worried", "i'm concerned", "i'm thrilled", "i'm disappointed"],
   regexAny ["emotional", "feelings", "mood"]]

/-- `MEMORY_PATTERNS['value-principle']` (lines 96-101). -/
def valuePrinciplePatterns : List (List Char → Bool) :=
  [regexAny ["i believe in", "it's important to", "i value", "my principle"],
   regexAny ["i stand for", "i care about", "what matters to me"],
   regexAny ["my philosophy", "my values", "morally", "ethically"],
   regexAny ["right thing to do", "wrong to", "should always", "should never"]]

/-- The `MEMORY_PATTERNS` table keyed by memory type. -/
def MEMORY_PATTERNS : MemoryType → List (List Char → Bool)
  | MemoryType.semantic => semanticPatterns
  | MemoryType.episodic => episodicPatterns
  | MemoryType.procedural => proceduralPatterns
  | MemoryType.emotional => emotionalPatterns
  | MemoryType.valuePrinciple => valuePrinciplePatterns

/-- One step of the pipeline's linear congruential generator:
`seed = (seed * 9301 + 49297) % 233280`. -/
def lcgNext (seed : ℕ) : ℕ := (seed * 9301 + 49297) % 233280

/-- The LCG seed after `n` steps. -/
def lcgSeq (seed : ℕ) : ℕ → ℕ
  | 0 => seed
  | n + 1 => lcgNext (lcgSeq seed n)

/-- The pipeline's own `generateEmbedding` (`update_memory.ts` lines 106-121):
the 32-bit rolling hash over every character of the lower-cased text seeds the
LCG, whose 128 successive draws are mapped to `seed / 233280 - 0.5` — values
in [-0.5, 0.5], not normalized (unlike the retrieval side's embedding). -/
noncomputable def generateEmbedding (text : String) : List ℝ :=
  List.ofFn fun i : Fin 128 =>
    ((lcgSeq (jsHash (toLowerStr text.toList)).natAbs (i.val + 1) : ℕ) : ℝ) / 233280
      - 0.5

/-- Split a character list at runs of separator characters, as
`String.prototype.split` does with a `/[...]+/` regex: a run of consecutive
separators is one split point. -/
def splitRunGo (p : Char → Bool) : Bool → List Char → List (List Char)
  | _, [] => [[]]
  | inSep, c :: cs =>
    if p c then
      if inSep then splitRunGo p true cs else [] :: splitRunGo p true cs
    else
      match splitRunGo p false cs with
      | [] => [[c]]
      | w :: ws => (c :: w) :: ws

/-- JS `content.split(/[.!?]+/)`. -/
def splitRun (p : Char → Bool) (s : List Char) : List (List Char) :=
  splitRunGo p false s

/-- Strip leading and trailing whitespace (JS `String.prototype.trim`). -/
def trimChars (s : List Char) : List Char :=
  ((s.dropWhile Char.isWhitespace).reverse.dropWhile Char.isWhitespace).reverse

/-- The sentence list of `extractMemories` (`update_memory.ts` line 139):
split on `/[.!?]+/`, keep sentences whose trimmed length exceeds 10, and pass
them on trimmed — the loop body only ever uses `sentence.trim()`, and its
`trimmed.length < 10` re-check is subsumed by the filter. -/
def sentencesOf (content : String) : List (List Char) :=
  ((splitRun (fun c => c = '.' || c = '!' || c = '?') content.toList).filter
    fun s => decide (10 < (trimChars s).length)).map trimChars

/-- The summary of a sentence (lines 148-150): truncated to 97 characters
plus an ellipsis when longer than 100. -/
def summarize (s : String) : String :=
  if 100 < s.length then String.mk (s.toList.take 97) ++ "..." else s

/-- A candidate extracted from a sentence (`extractMemories`' element shape),
before its random confidence is drawn. -/
structure CandidateMemory where
  type : MemoryType
  summary : String
  fullText : String
deriving DecidableEq

/-- `extractMemories` (lines 124-164) for one memory type: one candidate per
sentence matching any of the type's patterns — the source's `break` stops
after the first matching pattern, so each sentence is pushed at most once per
type. The five types are extracted independently of one another: there is no
cross-type first-match rule. -/
def extractMemories (content : String) (memoryType : MemoryType) :
    List CandidateMemory :=
  (sentencesOf content).filterMap fun trimmed =>
    if (MEMORY_PATTERNS memoryType).any fun pat => pat (toLowerStr trimmed) then
      some { type := memoryType, summary := summarize (String.mk trimmed),
             fullText := String.mk trimmed }
    else none

/-- The fixed type loop order of `processConversation` (line 189). -/
def memoryTypesOrder : List MemoryType :=
  [MemoryType.semantic, MemoryType.episodic, MemoryType.procedural,
   MemoryType.emotional, MemoryType.valuePrinciple]

/-- `allPotentialMemories` (lines 181-194): every type's extraction,
concatenated in the fixed type order. -/
def allCandidates (content : String) : List CandidateMemory :=
  (memoryTypesOrder.map fun t => extractMemories content t).join

/-- The lower-cased, whitespace-tokenized word set of a summary
(`calculateTextSimilarity`, `update_memory.ts` lines 254-262). -/
def wordSet (s : String) : List (List Char) :=
  (splitWs (toLowerStr s.toList)).dedup

/-- The size of the intersection of the two summaries' word sets. -/
def interCount (a b : String) : ℕ :=
  ((wordSet a).filter fun w => (wordSet b).contains w).length

/-- The size of the union of the two summaries' word sets. -/
def unionCount (a b : String) : ℕ :=
  (wordSet a ++ (wordSet b).filter fun w => !(wordSet a).contains w).length

/-- `calculateTextSimilarity`: Jaccard similarity — intersection size over
union size of the word sets, 0 when the union is empty. -/
def jaccard (a b : String) : ℚ :=
  if unionCount a b = 0 then 0 else (interCount a b : ℚ) / (unionCount a b : ℚ)

/-- The duplicate check of `processConversation` (lines 213-216): some
existing memory's summary exceeds 0.8 similarity to the candidate's. -/
def isDuplicateOf (cand : CandidateMemory) (existing : List Memory) : Bool :=
  existing.any fun m => decide ((8 : ℚ) / 10 < jaccard cand.summary m.summary)

/-- The datastore insert: appends a row with a fresh id and the given
timestamps, returning the persisted row and the new store. -/
def dbInsertMemory (db : DB) (now : Nat) (user_id : Nat) (embedding : List ℝ)
    (memory_type : MemoryType) (summary full_text : String)
    (details : Option (List (String × String))) (confidence_score : Option ℝ) :
    Memory × DB :=
  let m : Memory :=
    { id := db.memories.length + 1, user_id := user_id, embedding := embedding,
      memory_type := memory_type, summary := summary, full_text := full_text,
      details := details, confidence_score := confidence_score,
      created_at := now, updated_at := now }
  (m, { db with memories := db.memories ++ [m] })

/-- Input of `processConversation` (`ProcessConversationInput`). -/
structure ProcessConversationInput where
  userId : Nat
  sessionId : Nat
  messages : List ConversationTurn

/-- The duplicate-check fetch (lines 201-210): existing memories of the same
user and type, capped at 100. -/
def existingFor (db : DB) (userId : Nat) (t : MemoryType) : List Memory :=
  (db.memories.filter fun m =>
    decide (m.user_id = userId) && decide (m.memory_type = t)).take 100

/-- The row the candidate at emission index `j` inserts (lines 219-235): the
pipeline's own `generateEmbedding` of the full text, metadata recording the
session, the extraction time and the fixed `pattern_match` tag, and the random
confidence `0.7 + rand j * 0.3`. -/
noncomputable def insertCandidate (userId sessionId : Nat) (rand : ℕ → ℝ)
    (now : Nat) (db : DB) (jc : ℕ × CandidateMemory) : Memory × DB :=
  dbInsertMemory db now userId (generateEmbedding jc.2.fullText) jc.2.type
    jc.2.summary jc.2.fullText
    (some [("session_id", toString sessionId), ("extracted_at", toString now),
      ("confidence_reason", "pattern_match"), ("source", "conversation")])
    (some (0.7 + rand jc.1 * 0.3))

/-- One iteration of the creation loop (lines 197-244): fetch the existing
memories of the candidate's type, skip when the duplicate check fires, else
insert and append the persisted row to the result. -/
noncomputable def processCandidate (userId sessionId : Nat) (rand : ℕ → ℝ)
    (now : Nat) (acc : List Memory × DB) (jc : ℕ × CandidateMemory) :
    List Memory × DB :=
  if isDuplicateOf jc.2 (existingFor acc.2 userId jc.2.type) then acc
  else
    (acc.1 ++ [(insertCandidate userId sessionId rand now acc.2 jc).1],
     (insertCandidate userId sessionId rand now acc.2 jc).2)

/-- The concatenated user-turn text (line 178). -/
def userText (messages : List ConversationTurn) : String :=
  String.intercalate " " ((messages.filter fun m => decide (m.role = Role.user)).map
    fun m => m.content)

/-- `processConversation` (`update_memory.ts` lines 166-251): keep only user
turns (returning an empty list at once if none remain), join their text,
extract candidates for all five types in the fixed order, then for each
candidate in order check duplicates against the store as it then stands and
insert the survivors. -/
noncomputable def processConversation (db : DB) (rand : ℕ → ℝ) (now : Nat)
    (input : ProcessConversationInput) : List Memory × DB :=
  if (input.messages.filter fun m => decide (m.role = Role.user)).length = 0 then
    ([], db)
  else
    ((allCandidates (userText input.messages)).enum).foldl
      (processCandidate input.userId input.sessionId rand now) ([], db)

/-- The scenario sentence of spec section 8 and the handler test, as the
segmentation yields it (terminal period stripped). -/
def vpSentence : String := "I believe in treating everyone with respect"

/-- The value-principle candidate the sentence produces (its
`/i believe in|.../i` pattern). -/
def vpCandidate : CandidateMemory :=
  { type := MemoryType.valuePrinciple, summary := vpSentence, fullText := vpSentence }

/-- The semantic candidate the same sentence also produces (the semantic
table's `/i believe|i think that|in my opinion/i` pattern). -/
def semCandidate : CandidateMemory :=
  { type := MemoryType.semantic, summary := vpSentence, fullText := vpSentence }

theorem jaccard_vp_self : (8 : ℚ) / 10 < jaccard vpSentence vpSentence := by
  unfold jaccard
  rw [show unionCount vpSentence vpSentence = 7 from by decide,
    show interCount vpSentence vpSentence = 7 from by decide]
  norm_num

/-- Folding more candidates never drops already-persisted results. -/
theorem processFold_mono (u sid : Nat) (rand : ℕ → ℝ) (now : Nat) :
    ∀ (cs : List (ℕ × CandidateMemory)) (acc : List Memory × DB) (m : Memory),
      m ∈ acc.1 → m ∈ (cs.foldl (processCandidate u sid rand now) acc).1
  | [], _, _, hm => hm
  | c :: cs, acc, m, hm => by
    rw [List.foldl_cons]
    refine processFold_mono u sid rand now cs _ m ?_
    unfold processCandidate
    split
    · exact hm
    · exact List.mem_append_left _ hm

theorem processCandidate_of_dup (u sid : Nat) (rand : ℕ → ℝ) (now : Nat)
    (acc : List Memory × DB) (jc : ℕ × CandidateMemory)
    (h : isDuplicateOf jc.2 (existingFor acc.2 u jc.2.type) = true) :
    processCandidate u sid rand now acc jc = acc := by
  unfold processCandidate
  rw [if_pos h]

theorem processCandidate_of_not_dup (u sid : Nat) (rand : ℕ → ℝ) (now : Nat)
    (acc : List Memory × DB) (jc : ℕ × CandidateMemory)
    (h : isDuplicateOf jc.2 (existingFor acc.2 u jc.2.type) = false) :
    processCandidate u sid rand now acc jc =
      (acc.1 ++ [(insertCandidate u sid rand now acc.2 jc).1],
       (insertCandidate u sid rand now acc.2 jc).2) := by
  unfold processCandidate
  rw [if_neg (by simp [h])]

/-- The main fold invariant: if every store row is either original (where
`hfresh` rules out near-duplicates of the sentence) or already in the result,
folding a candidate list containing the sentence's value-principle candidate
puts a near-identical value-principle memory into the result — either that
candidate's own insertion, or the same-call insertion that blocked it. -/
theorem processFold_vp (u sid : Nat) (rand : ℕ → ℝ) (now : Nat) (db : DB)
    (hfresh : ∀ m ∈ db.memories, m.user_id = u →
      m.memory_type = MemoryType.valuePrinciple →
      jaccard vpSentence m.summary ≤ 8 / 10) :
    ∀ (cs : List (ℕ × CandidateMemory)) (acc : List Memory × DB),
      (∀ m ∈ acc.2.memories, m ∈ db.memories ∨ m ∈ acc.1) →
      ∀ j : ℕ, (j, vpCandidate) ∈ cs →
      ∃ m ∈ (cs.foldl (processCandidate u sid rand now) acc).1,
        m.memory_type = MemoryType.valuePrinciple ∧
          (8 : ℚ) / 10 < jaccard vpSentence m.summary
  | [], _, _, _, hc => absurd hc (List.not_mem_nil _)
  | p :: cs, acc, hinv, j, hc => by
    rw [List.foldl_cons]
    rcases List.mem_cons.1 hc with heq | hc'
    · subst heq
      by_cases hdup : isDuplicateOf vpCandidate
          (existingFor acc.2 u vpCandidate.type) = true
      · obtain ⟨m', hm', hsim⟩ := List.any_eq_true.1 hdup
        have hsim' : (8 : ℚ) / 10 < jaccard vpCandidate.summary m'.summary :=
          of_decide_eq_true hsim
        have hmem2 : m' ∈ acc.2.memories ∧ m'.user_id = u ∧
            m'.memory_type = vpCandidate.type := by
          have h1 : m' ∈ (acc.2.memories.filter fun m =>
              decide (m.user_id = u) && decide (m.memory_type = vpCandidate.type)) :=
            (List.take_sublist 100 _).subset hm'
          obtain ⟨h2, h3⟩ := List.mem_filter.1 h1
          rw [Bool.and_eq_true] at h3
          exact ⟨h2, of_decide_eq_true h3.1, of_decide_eq_true h3.2⟩
        rcases hinv m' hmem2.1 with hdb | hacc
        · exact absurd (hfresh m' hdb hmem2.2.1 hmem2.2.2) (not_le.2 hsim')
        · refine ⟨m', ?_, hmem2.2.2, hsim'⟩
          rw [processCandidate_of_dup u sid rand now acc (j, vpCandidate) hdup]
          exact processFold_mono u sid rand now cs acc m' hacc
      · have hstep := processCandidate_of_not_dup u sid rand now acc (j, vpCandidate)
          (by simpa using hdup)
        refine ⟨(insertCandidate u sid rand now acc.2 (j, vpCandidate)).1, ?_, rfl, ?_⟩
        · rw [hstep]
          exact processFold_mono u sid rand now cs _ _
            (List.mem_append_right _ (List.mem_singleton_self _))
        · exact jaccard_vp_self
    · refine processFold_vp u sid rand now db hfresh cs
        (processCandidate u sid rand now acc p) ?_ j hc'
      intro m hm
      by_cases hdup : isDuplicateOf p.2 (existingFor acc.2 u p.2.type) = true
      · rw [processCandidate_of_dup u sid rand now acc p hdup] at hm ⊢
        exact hinv m hm
      · have hstep := processCandidate_of_not_dup u sid rand now acc p
          (by simpa using hdup)
        rw [hstep] at hm ⊢
        have hm2 : m ∈ acc.2.memories ++ [(insertCandidate u sid rand now acc.2 p).1] :=
          hm
        show m ∈ db.memories ∨ m ∈ acc.1 ++ [(insertCandidate u sid rand now acc.2 p).1]
        rcases List.mem_append.1 hm2 with h | h
        · rcases hinv m h with h' | h'
          · exact Or.inl h'
          · exact Or.inr (List.mem_append_left _ h')
        · exact Or.inr (List.mem_append_right _ h)

/-- C3 amended: for a call whose user turns segment into a sentence list
containing the scenario sentence, the extractor emits the sentence both as a
value-principle candidate and as a semantic candidate (the per-type extraction
runs independently, and the semantic table also matches `/i believe/`), and
under no other type; and when the store holds no near-duplicate
(Jaccard > 0.8) value-principle memory of this user, the returned persisted
list contains a value-principle memory near-identical to the sentence. -/
theorem processConversation_value_principle (db : DB) (rand : ℕ → ℝ) (now : Nat)
    (input : ProcessConversationInput)
    (hmem : vpSentence.toList ∈ sentencesOf (userText input.messages))
    (hfresh : ∀ m ∈ db.memories, m.user_id = input.userId →
      m.memory_type = MemoryType.valuePrinciple →
      jaccard vpSentence m.summary ≤ 8 / 10) :
    (∃ m ∈ (processConversation db rand now input).1,
      m.memory_type = MemoryType.valuePrinciple ∧
        (8 : ℚ) / 10 < jaccard vpSentence m.summary) ∧
    semCandidate ∈ allCandidates (userText input.messages) ∧
    vpCandidate ∈ allCandidates (userText input.messages) ∧
    (∀ c ∈ allCandidates (userText input.messages), c.fullText = vpSentence →
      c = semCandidate ∨ c = vpCandidate) := by
  have hmemOf : ∀ t : MemoryType, t ∈ memoryTypesOrder →
      ((MEMORY_PATTERNS t).any fun pat => pat (toLowerStr vpSentence.toList)) = true →
      ({ type := t, summary := vpSentence, fullText := vpSentence } :
        CandidateMemory) ∈ allCandidates (userText input.messages) := by
    intro t ht hcond
    unfold allCandidates
    refine List.mem_join.2 ⟨extractMemories (userText input.messages) t,
      List.mem_map_of_mem _ ht, ?_⟩
    unfold extractMemories
    refine List.mem_filterMap.2 ⟨vpSentence.toList, hmem, ?_⟩
    rw [if_pos hcond]
    rfl
  have hsem : semCandidate ∈ allCandidates (userText input.messages) :=
    hmemOf MemoryType.semantic (by decide) (by decide)
  have hvp : vpCandidate ∈ allCandidates (userText input.messages) :=
    hmemOf MemoryType.valuePrinciple (by decide) (by decide)
  refine ⟨?_, hsem, hvp, ?_⟩
  · have husers :
        ¬(input.messages.filter fun m => decide (m.role = Role.user)).length = 0 := by
      intro h0
      rw [List.length_eq_zero] at h0
      rw [userText, h0] at hmem
      exact absurd hmem (by decide)
    rw [processConversation, if_neg husers]
    obtain ⟨i, hi⟩ := List.get?_of_mem hvp
    have henum : (i, vpCandidate) ∈ (allCandidates (userText input.messages)).enum := by
      rw [List.mem_enum_iff_get?]
      exact hi
    exact processFold_vp input.userId input.sessionId rand now db hfresh _ ([], db)
      (fun m hm => Or.inl hm) i henum
  · intro c hc hfull
    unfold allCandidates at hc
    obtain ⟨l, hl, hcl⟩ := List.mem_join.1 hc
    obtain ⟨t, ht, rfl⟩ := List.mem_map.1 hl
    unfold extractMemories at hcl
    obtain ⟨trimmed, htr, hsome⟩ := List.mem_filterMap.1 hcl
    split at hsome
    · rename_i hcond
      obtain rfl := Option.some.inj hsome
      have htrv : trimmed = vpSentence.toList := congrArg String.toList hfull
      subst htrv
      cases t with
      | semantic => exact Or.inl rfl
      | episodic => exact absurd hcond (by decide)
      | procedural => exact absurd hcond (by decide)
      | emotional => exact absurd hcond (by decide)
      | valuePrinciple => exact Or.inr rfl
    · exact absurd hsome (by simp)

/-- A store that already holds the identical value-principle memory. -/
noncomputable def vpBlockedDb : DB :=
  { users := [], sessions := [], messages := [],
    memories := [{ id := 1, user_id := 1, embedding := [],
                   memory_type := MemoryType.valuePrinciple, summary := vpSentence,
                   full_text := vpSentence, details := none, confidence_score := some 1,
                   created_at := 0, updated_at := 0 }] }

/-- A conversation whose single user turn is the scenario sentence. -/
def vpInput : ProcessConversationInput :=
  { userId := 1, sessionId := 1,
    messages := [{ role := Role.user,
                   content := "I believe in treating everyone with respect.",
                   timestamp := 0 }] }

/-- Counterexample to C3 as stated: the scenario sentence also matches the
semantic table's `/i believe|i think that|in my opinion/i`, so the extractor
emits it as a semantic candidate besides the value-principle one; and with the
near-duplicate value-principle memory already stored, the call persists only
the semantic row — the returned list holds no value-principle memory for the
sentence although the user turns contain it. -/
theorem processConversation_semantic_cex :
    vpSentence.toList ∈ sentencesOf (userText vpInput.messages) ∧
    semCandidate ∈ allCandidates (userText vpInput.messages) ∧
    (processConversation vpBlockedDb (fun _ => 0) 0 vpInput).1.map
      (fun m => m.memory_type) = [MemoryType.semantic] := by
  refine ⟨by decide, by decide, ?_⟩
  have e1 : processCandidate vpInput.userId vpInput.sessionId (fun _ => 0) 0
      ([], vpBlockedDb) (0, semCandidate) =
      ([(insertCandidate vpInput.userId vpInput.sessionId (fun _ => 0) 0 vpBlockedDb
          (0, semCandidate)).1],
       (insertCandidate vpInput.userId vpInput.sessionId (fun _ => 0) 0 vpBlockedDb
          (0, semCandidate)).2) := by
    rw [processCandidate_of_not_dup _ _ _ _ _ _ (by decide)]
    rfl
  have h2 : isDuplicateOf vpCandidate (existingFor
      (insertCandidate vpInput.userId vpInput.sessionId (fun _ => 0) 0 vpBlockedDb
        (0, semCandidate)).2 1 MemoryType.valuePrinciple) = true := by
    rw [show existingFor (insertCandidate vpInput.userId vpInput.sessionId (fun _ => 0) 0
        vpBlockedDb (0, semCandidate)).2 1 MemoryType.valuePrinciple =
      vpBlockedDb.memories from rfl]
    unfold isDuplicateOf
    simp only [vpBlockedDb, List.any_cons, List.any_nil, Bool.or_false]
    exact decide_eq_true jaccard_vp_self
  have e2 : processCandidate vpInput.userId vpInput.sessionId (fun _ => 0) 0
      ([(insertCandidate vpInput.userId vpInput.sessionId (fun _ => 0) 0 vpBlockedDb
          (0, semCandidate)).1],
       (insertCandidate vpInput.userId vpInput.sessionId (fun _ => 0) 0 vpBlockedDb
          (0, semCandidate)).2) (1, vpCandidate) =
      ([(insertCandidate vpInput.userId vpInput.sessionId (fun _ => 0) 0 vpBlockedDb
          (0, semCandidate)).1],
       (insertCandidate vpInput.userId vpInput.sessionId (fun _ => 0) 0 vpBlockedDb
          (0, semCandidate)).2) :=
    processCandidate_of_dup _ _ _ _ _ _ h2
  rw [processConversation, if_neg (by decide),
    show (allCandidates (userText vpInput.messages)).enum =
      [(0, semCandidate), (1, vpCandidate)] from by decide,
    List.foldl_cons, e1, List.foldl_cons, e2, List.foldl_nil]
  rfl

/-- Witness for the amended C3 at a fresh (empty) store, with the zero random
sequence. -/
theorem processConversation_value_principle_witness :
    (∃ m ∈ (processConversation emptyDb (fun _ => 0) 0 vpInput).1,
      m.memory_type = MemoryType.valuePrinciple ∧
        (8 : ℚ) / 10 < jaccard vpSentence m.summary) ∧
    semCandidate ∈ allCandidates (userText vpInput.messages) ∧
    vpCandidate ∈ allCandidates (userText vpInput.messages) ∧
    (∀ c ∈ allCandidates (userText vpInput.messages), c.fullText = vpSentence →
      c = semCandidate ∨ c = vpCandidate) :=
  processConversation_value_principle emptyDb (fun _ => 0) 0 vpInput (by decide)
    (fun _ hm => absurd hm (by simp [emptyDb]))

end LTM
